import Mathlib

/-!
# Verification of the van editor (`src/app/page.tsx`)

Shallow embedding of the single-page van-sticker editor.  The page keeps a
fabric.js canvas with one background image (the Base Layer) and user-placed
SVG sticker groups (Overlay Elements), four tone parameters applied as a
filter chain to the background, and simple delete / send-to-back actions.

Conventions of the embedding:
* JavaScript numbers are modelled as `ℚ` (the arithmetic in the source is
  exact on the values of interest; where the DOM truncates to integers —
  the off-screen canvas dimensions in `processImage` — we use `ℕ` floor
  division explicitly).
* fabric.js objects are records; object *reference identity* is modelled by
  a numeric `id` field, with `Nodup` of the id list standing for "all list
  entries are distinct objects".
* The fabric canvas object list `_objects` is modelled back-to-front: index
  0 is the lowest z-order (what `sendToBack` produces), the last element is
  top-most (what `add` produces).
-/

/-- The two kinds of scene objects this page creates: the Base Layer is a
`fabric.Image`; stickers are grouped SVG elements (never a `fabric.Image`). -/
inductive ObjKind
  | image
  | group
  deriving DecidableEq, Repr

/-- One entry of a fabric image's `filters` array, as constructed in the
filter `useEffect` (lines 228–233): `Brightness`, `Contrast`, `Saturation`,
`HueRotation`, each carrying the parameter it was constructed with. -/
inductive FilterF
  | brightness (b : ℚ)
  | contrast (c : ℚ)
  | saturation (s : ℚ)
  | hueRotation (r : ℚ)
  deriving DecidableEq, Repr

/-- The React `filters` state: the four tone parameters. -/
structure ToneParams where
  brightness : ℚ
  contrast : ℚ
  saturation : ℚ
  hue : ℚ
  deriving DecidableEq, Repr

/-- The four keys accepted by `handleFilterChange`. -/
inductive ToneKey
  | brightness
  | contrast
  | saturation
  | hue
  deriving DecidableEq, Repr

/-- `handleFilterChange`'s state update (line 281):
`setFilters(prev => ({ ...prev, [type]: value }))`. -/
def setKey (f : ToneParams) : ToneKey → ℚ → ToneParams
  | ToneKey.brightness, v => { f with brightness := v }
  | ToneKey.contrast, v => { f with contrast := v }
  | ToneKey.saturation, v => { f with saturation := v }
  | ToneKey.hue, v => { f with hue := v }

/-- A fabric object, restricted to the attributes this page reads or
writes.  `width`/`height` are the object's intrinsic dimensions; `id`
models reference identity. -/
structure FabricObject where
  id : ℕ
  kind : ObjKind
  width : ℚ
  height : ℚ
  left : ℚ
  top : ℚ
  scaleX : ℚ
  scaleY : ℚ
  originX : String
  originY : String
  selectable : Bool
  evented : Bool
  cornerSize : ℚ
  cornerColor : String
  cornerStrokeColor : String
  borderColor : String
  transparentCorners : Bool
  filters : List FilterF
  deriving DecidableEq, Repr

/-- The fabric canvas.  `objects` is `_objects` back-to-front;
`activeObject` is the current selection (by object id); `backgroundObject`
is the custom property declared in the module augmentation (lines 49–53)
— optional, hence `Option`; `backgroundImage` is fabric's own background
image slot set by `setBackgroundImage` (by object id). -/
structure Canvas where
  width : ℚ
  height : ℚ
  backgroundColor : String
  objects : List FabricObject
  activeObject : Option ℕ
  backgroundObject : Option ℕ
  backgroundImage : Option ℕ
  deriving DecidableEq, Repr

/-- First object with the given id (fabric reference lookup). -/
def findById : List FabricObject → ℕ → Option FabricObject
  | [], _ => none
  | o :: rest, i => if o.id = i then some o else findById rest i

/-- Remove the first object with the given id (fabric
`removeFromArray`). -/
def removeById : List FabricObject → ℕ → List FabricObject
  | [], _ => []
  | o :: rest, i => if o.id = i then rest else o :: removeById rest i

/-- `canvas.getObjects().find(obj => obj instanceof fabric.Image)` — the
lookup used by the filter effect (lines 219–221) and by
`sendStickerToBack` (lines 336–338). -/
def firstImage : List FabricObject → Option FabricObject
  | [] => none
  | o :: rest => if o.kind = ObjKind.image then some o else firstImage rest

/-- `canvas.add(obj)`: appends on top. -/
def Canvas.add (c : Canvas) (o : FabricObject) : Canvas :=
  { c with objects := c.objects ++ [o] }

/-- `canvas.remove(obj)`: removes the object; fabric clears the active
object when the removed object was selected. -/
def Canvas.remove (c : Canvas) (i : ℕ) : Canvas :=
  { c with
    objects := removeById c.objects i,
    activeObject := if c.activeObject = some i then none else c.activeObject }

/-- `canvas.sendToBack(obj)`: moves the object to index 0 (lowest
z-order). -/
def Canvas.sendToBack (c : Canvas) (i : ℕ) : Canvas :=
  match findById c.objects i with
  | none => c
  | some o => { c with objects := o :: removeById c.objects i }

/-- `canvas.setActiveObject(obj)`. -/
def Canvas.setActiveObject (c : Canvas) (i : ℕ) : Canvas :=
  { c with activeObject := some i }

/-- `canvas.getActiveObject()`. -/
def Canvas.getActiveObject (c : Canvas) : Option FabricObject :=
  c.activeObject.bind (fun i => findById c.objects i)

/-- `canvas.setBackgroundImage(img, ...)` (line 162). -/
def Canvas.setBackgroundImage (c : Canvas) (i : ℕ) : Canvas :=
  { c with backgroundImage := some i }

/-- The whole component state: the canvas ref, the React `filters` state
and the React `selectedSticker` flag. -/
structure EditorState where
  canvas : Canvas
  filters : ToneParams
  selectedSticker : Bool
  deriving DecidableEq, Repr

/-! ## Image preprocessor (`processImage`, lines 80–124)

Only the dimension arithmetic matters for the claims.  The source computes
`newWidth`/`newHeight` as floats and assigns them to the off-screen canvas
dimensions, which truncates to integers; with natural-number inputs the
computed values are `maxSize * w / h` exactly, so truncation is `ℕ` floor
division. -/

/-- Output pixel-buffer dimensions of `processImage` for an input image of
`w × h` pixels (default bound 2048).  `if (Math.max(w, h) > maxSize)`:
when the height is the longer (or equal) side, `newHeight = maxSize`,
`newWidth = (maxSize / h) * w`; symmetrically otherwise; else unchanged. -/
def processImageDims (w h : ℕ) (maxSize : ℕ := 2048) : ℕ × ℕ :=
  if max w h > maxSize then
    if h ≥ w then (maxSize * w / h, maxSize)
    else (maxSize, maxSize * h / w)
  else (w, h)

/-! ## Canvas initialization (`initCanvas`, lines 126–178) -/

/-- The canvas as constructed at line 130: 1200 × 960, grey background,
nothing on it, no selection, and — crucially for the delete guards — the
declared `backgroundObject` property left unassigned. -/
def emptyCanvas : Canvas :=
  { width := 1200
    height := 960
    backgroundColor := "#f5f5f5"
    objects := []
    activeObject := none
    backgroundObject := none
    backgroundImage := none }

/-- The Base Layer image as configured in the `fromURL` callback (lines
141–157): scaled by `min(canvasW / imgW, canvasH / imgH)`, centered at the
canvas midpoint, `selectable: false`, `evented: false`.  `w`, `h` are the
loaded image's intrinsic dimensions.  Fabric defaults fill the fields the
code does not set. -/
def mkBaseImage (w h : ℚ) : FabricObject :=
  let scale := min (emptyCanvas.width / w) (emptyCanvas.height / h)
  { id := 0
    kind := ObjKind.image
    width := w
    height := h
    left := emptyCanvas.width / 2
    top := emptyCanvas.height / 2
    scaleX := scale
    scaleY := scale
    originX := "center"
    originY := "center"
    selectable := false
    evented := false
    cornerSize := 13
    cornerColor := "rgb(178,204,255)"
    cornerStrokeColor := ""
    borderColor := "rgb(178,204,255)"
    transparentCorners := true
    filters := [] }

/-- State after `initCanvas` completes (base image loaded): the image is
`add`ed, then `setBackgroundImage`, then `sendToBack` (lines 160–163).
The filter `useEffect` that ran at mount saw a null canvas ref and did
nothing, so the base image's filter chain is still empty. -/
def initCanvas (w h : ℚ) : EditorState :=
  let img := mkBaseImage w h
  let c := ((emptyCanvas.add img).setBackgroundImage img.id).sendToBack img.id
  { canvas := c
    filters := { brightness := 0, contrast := 0, saturation := 0, hue := 0 }
    selectedSticker := false }

/-! ## Tone adjustment pipeline (`useEffect` on `[filters]`, lines 215–238) -/

/-- The chain pushed at lines 228–233: exactly four filters, in the fixed
order brightness, contrast, saturation, hue-rotation, each parameterized
by the current value of its parameter. -/
def buildFilters (f : ToneParams) : List FilterF :=
  [FilterF.brightness f.brightness, FilterF.contrast f.contrast,
   FilterF.saturation f.saturation, FilterF.hueRotation f.hue]

/-- The mutation performed by the filter effect: find the first
`fabric.Image` among the canvas objects, reset its `filters` array to `[]`
and push the four filters (so its chain becomes `buildFilters f`); every
other object is left untouched.  If no image is found the effect returns
early. -/
def setBaseFilters : List FabricObject → ToneParams → List FabricObject
  | [], _ => []
  | o :: rest, f =>
    if o.kind = ObjKind.image then { o with filters := buildFilters f } :: rest
    else o :: setBaseFilters rest f

/-- The filter effect on the canvas. -/
def applyFilterEffect (c : Canvas) (f : ToneParams) : Canvas :=
  { c with objects := setBaseFilters c.objects f }

/-- One React commit of the filter effect: recompute the Base Layer chain
from the current `filters` state. -/
def runFilterEffect (s : EditorState) : EditorState :=
  { s with canvas := applyFilterEffect s.canvas s.filters }

/-- `handleFilterChange` (lines 280–282) followed by the effect re-run it
triggers: assign one tone parameter, then the normal recompute path. -/
def handleFilterChange (s : EditorState) (k : ToneKey) (v : ℚ) : EditorState :=
  runFilterEffect { s with filters := setKey s.filters k v }

/-- `resetFilters` (lines 285–292) followed by the effect re-run: assign
all four parameters to zero, then the same recompute path — no
special-case clear logic. -/
def resetFilters (s : EditorState) : EditorState :=
  runFilterEffect
    { s with filters := { brightness := 0, contrast := 0, saturation := 0, hue := 0 } }

/-! ## Sticker placement (`addSticker`, lines 241–277) -/

/-- The `svgGroup.set({...})` call (lines 255–267): center on the canvas,
uniform scale `100 / width`, and the interactive-handle styling. -/
def stickerSet (g : FabricObject) (cw ch : ℚ) : FabricObject :=
  let scaleFactor := 100 / g.width
  { g with
    left := cw / 2
    top := ch / 2
    scaleX := scaleFactor
    scaleY := scaleFactor
    cornerSize := 10
    cornerColor := "white"
    cornerStrokeColor := "#aaa"
    borderColor := "#aaa"
    transparentCorners := false
    originX := "center"
    originY := "center" }

/-- The success continuation of `fabric.loadSVGFromURL`: style the group,
`add` it, make it the active selection, set the `selectedSticker` flag. -/
def addSticker (s : EditorState) (g : FabricObject) : EditorState :=
  let g2 := stickerSet g s.canvas.width s.canvas.height
  { s with
    canvas := (s.canvas.add g2).setActiveObject g2.id
    selectedSticker := true }

/-- One whole placement action together with its diagnostic output, as a
function of the load result.  `addSticker` registers only a success
continuation and contains no error handler and no logging call, so on a
failed load (`none`) — modelled from the spec's loader contract, under
which the completion continuation is simply not run for a failed source —
the state is unchanged and nothing is logged.  (The only diagnostic logs
in the program are `console.error` in `processImage` and in the
`initCanvas` catch block.) -/
def addStickerOutcome (s : EditorState) (res : Option FabricObject) :
    EditorState × List String :=
  match res with
  | some g => (addSticker s g, [])
  | none => (s, [])

/-! ## Delete and reorder actions -/

/-- `deleteSelectedSticker` (lines 312–323).  The guard is
`activeObject && activeObject !== canvasRef.current.backgroundObject`:
with an unassigned `backgroundObject` (i.e. `none`), the inequality holds
for every active object. -/
def deleteSelectedSticker (s : EditorState) : EditorState :=
  match s.canvas.getActiveObject with
  | none => s
  | some ao =>
    if s.canvas.backgroundObject = some ao.id then s
    else { s with canvas := s.canvas.remove ao.id, selectedSticker := false }

/-- `handleKeyDown` (lines 181–198): on Delete or Backspace, the same
guard and removal as `deleteSelectedSticker` (the body is duplicated in
the source); any other key is ignored. -/
def handleKeyDown (s : EditorState) (key : String) : EditorState :=
  if key = "Delete" ∨ key = "Backspace" then
    match s.canvas.getActiveObject with
    | none => s
    | some ao =>
      if s.canvas.backgroundObject = some ao.id then s
      else { s with canvas := s.canvas.remove ao.id, selectedSticker := false }
  else s

/-- `sendStickerToBack` (lines 326–346): same guard, then send the active
object to the back, then find the first `fabric.Image` and send it to the
very back. -/
def sendStickerToBack (s : EditorState) : EditorState :=
  match s.canvas.getActiveObject with
  | none => s
  | some ao =>
    if s.canvas.backgroundObject = some ao.id then s
    else
      let c1 := s.canvas.sendToBack ao.id
      let c2 :=
        match firstImage c1.objects with
        | none => c1
        | some bg => c1.sendToBack bg.id
      { s with canvas := c2 }

/-! ## Selection events

The canvas's `selection:created` / `selection:updated` / `selection:cleared`
handlers (lines 171–173) set the `selectedSticker` flag.  A user click
selection is modelled from the spec's surface contract: the library's
hit-test only ever selects interactive (selectable) elements. -/

/-- A user selecting an object on the canvas (hit-test), plus the
`selection:created`/`updated` handler. -/
def selectObject (s : EditorState) (i : ℕ) : EditorState :=
  { s with canvas := s.canvas.setActiveObject i, selectedSticker := true }

/-- The selection being cleared, plus the `selection:cleared` handler. -/
def clearSelection (s : EditorState) : EditorState :=
  { s with
    canvas := { s.canvas with activeObject := none }
    selectedSticker := false }

/-! ## Event system

All mutation is event-driven; `Step s t` says one user-triggered event (or
async load completion) turns state `s` into state `t`.  Placement requires
a fresh object (a newly parsed SVG group is a new reference, distinct from
everything on the canvas) of sticker kind; user selection can only target
a selectable object (the library's hit-test contract). -/

inductive Step : EditorState → EditorState → Prop
  | place (s : EditorState) (g : FabricObject)
      (hfresh : findById s.canvas.objects g.id = none)
      (hkind : g.kind = ObjKind.group) : Step s (addSticker s g)
  | placeFail (s : EditorState) : Step s (addStickerOutcome s none).1
  | key (s : EditorState) (k : String) : Step s (handleKeyDown s k)
  | deleteBtn (s : EditorState) : Step s (deleteSelectedSticker s)
  | toBack (s : EditorState) : Step s (sendStickerToBack s)
  | tone (s : EditorState) (k : ToneKey) (v : ℚ) : Step s (handleFilterChange s k v)
  | reset (s : EditorState) : Step s (resetFilters s)
  | select (s : EditorState) (o : FabricObject)
      (hmem : o ∈ s.canvas.objects)
      (hsel : o.selectable = true) : Step s (selectObject s o.id)
  | deselect (s : EditorState) : Step s (clearSelection s)

/-- States reachable from a freshly initialized surface whose base image
has intrinsic dimensions `w × h`. -/
def Reachable (w h : ℚ) (s : EditorState) : Prop :=
  Relation.ReflTransGen Step (initCanvas w h) s

/-- The all-zero tone parameters (`resetFilters`' assignment). -/
def zeroTone : ToneParams := { brightness := 0, contrast := 0, saturation := 0, hue := 0 }

/-- Number of Overlay Elements (sticker groups) on the canvas. -/
def overlayCount : List FabricObject → ℕ
  | [] => 0
  | o :: rest => (if o.kind = ObjKind.group then 1 else 0) + overlayCount rest

/-- A parsed SVG sticker group as handed to `addSticker`'s continuation,
with fabric's defaults for the fields the page does not set. -/
def sampleSticker : FabricObject :=
  { id := 1
    kind := ObjKind.group
    width := 50
    height := 40
    left := 0
    top := 0
    scaleX := 1
    scaleY := 1
    originX := "left"
    originY := "top"
    selectable := true
    evented := true
    cornerSize := 13
    cornerColor := "rgb(178,204,255)"
    cornerStrokeColor := ""
    borderColor := "rgb(178,204,255)"
    transparentCorners := true
    filters := [] }

/-- An initialized surface with one sticker placed and selected. -/
def oneStickerState : EditorState := addSticker (initCanvas 4 3) sampleSticker

/-- A hypothetical state in which the Base Layer itself is the active
object: the "should be unreachable" case the delete guard is meant to
cover defensively. -/
def baseSelected : EditorState :=
  { initCanvas 4 3 with
    canvas := { (initCanvas 4 3).canvas with activeObject := some 0 } }

/-- `Nodup` of the id list: all entries of the object list are distinct
references. -/
def idsNodup (l : List FabricObject) : Prop := (l.map (fun o => o.id)).Nodup

/-! ## Pixel semantics of the tone filters

Modelled from the spec: the tone filters are supplied by the external
scene-graph library (its code is not part of this repository), and the
spec describes them as the standard per-pixel brightness / contrast /
saturation / hue-rotation transforms, where "a filter with a neutral/zero
value" leaves the pixel data unchanged.  We model one RGB pixel as a
triple of rationals in the 0–255 range and the transforms as: brightness
adds `b·255` to every channel; contrast multiplies around 128 by the
factor `259·(c·255+255) / (255·(259−c·255))`; saturation moves each
channel away from the channel maximum by `(max − v)·(−s)`; hue-rotation
applies the standard luminance-preserving rotation matrix, whose entries
depend on the cosine and (√⅓-scaled) sine of the rotation angle —
supplied by the parameter `trig`, about which the claims only need the
neutral-angle fact `trig 0 = (1, 0)`. -/

/-- Apply one filter to one RGB pixel.  `trig r` is the pair
(cos θ(r), √⅓ · sin θ(r)) for the hue-rotation angle θ(r) the library
derives from the rotation parameter `r`; θ(0) = 0. -/
def applyFilter (trig : ℚ → ℚ × ℚ) : FilterF → ℚ × ℚ × ℚ → ℚ × ℚ × ℚ
  | FilterF.brightness b, (r, g, bl) =>
      (r + b * 255, g + b * 255, bl + b * 255)
  | FilterF.contrast c, (r, g, bl) =>
      let k := 259 * (c * 255 + 255) / (255 * (259 - c * 255))
      (k * (r - 128) + 128, k * (g - 128) + 128, k * (bl - 128) + 128)
  | FilterF.saturation sv, (r, g, bl) =>
      let m := max r (max g bl)
      (r + (m - r) * (-sv), g + (m - g) * (-sv), bl + (m - bl) * (-sv))
  | FilterF.hueRotation rot, (r, g, bl) =>
      let co := (trig rot).1
      let si := (trig rot).2
      let t := (1 - co) / 3
      ((co + t) * r + (t - si) * g + (t + si) * bl,
       (t + si) * r + (co + t) * g + (t - si) * bl,
       (t - si) * r + (t + si) * g + (co + t) * bl)

/-- Apply a whole filter chain left to right. -/
def applyChain (trig : ℚ → ℚ × ℚ) (chain : List FilterF) (p : ℚ × ℚ × ℚ) :
    ℚ × ℚ × ℚ :=
  chain.foldl (fun q f => applyFilter trig f q) p

/-- The Base Layer's current filter chain: the `filters` array of the
first `fabric.Image` on the canvas (empty when there is none). -/
def baseFilterChain (s : EditorState) : List FilterF :=
  ((firstImage s.canvas.objects).map (fun o => o.filters)).getD []

/-! ## The editor invariant

Facts that hold in every reachable state: the custom `backgroundObject`
property is never assigned; objects are pairwise-distinct references; the
Base Layer (the one `fabric.Image`, id 0, non-interactive) sits at the
lowest z-order and is also registered as the canvas background image; and
only overlay groups can be the active selection. -/

structure EditorInv (s : EditorState) : Prop where
  bgNone : s.canvas.backgroundObject = none
  nodup : idsNodup s.canvas.objects
  base : ∃ bg, s.canvas.objects.head? = some bg ∧ bg.kind = ObjKind.image ∧
    bg.id = 0 ∧ bg.selectable = false ∧ bg.evented = false
  onlyBase : ∀ o ∈ s.canvas.objects, o.kind = ObjKind.image → o.id = 0
  activeInv : ∀ i, s.canvas.activeObject = some i →
    i ≠ 0 ∧ ∃ o, findById s.canvas.objects i = some o ∧ o.kind = ObjKind.group
  bgImg : s.canvas.backgroundImage = some 0

/-! ## Lemmas about the list primitives -/

theorem findById_eq_none {l : List FabricObject} {i : ℕ} :
    findById l i = none ↔ ∀ o ∈ l, o.id ≠ i := by
  induction l with
  | nil => simp [findById]
  | cons a t ih =>
    by_cases h : a.id = i
    · simp [findById, h]
    · simp [findById, h, ih]

theorem findById_some_mem {l : List FabricObject} {i : ℕ} {o : FabricObject}
    (h : findById l i = some o) : o ∈ l := by
  induction l with
  | nil => simp [findById] at h
  | cons a t ih =>
    by_cases ha : a.id = i
    · simp [findById, ha] at h
      simp [h]
    · simp [findById, ha] at h
      exact List.mem_cons_of_mem _ (ih h)

theorem findById_some_id {l : List FabricObject} {i : ℕ} {o : FabricObject}
    (h : findById l i = some o) : o.id = i := by
  induction l with
  | nil => simp [findById] at h
  | cons a t ih =>
    by_cases ha : a.id = i
    · simp [findById, ha] at h
      rw [← h, ha]
    · simp [findById, ha] at h
      exact ih h

theorem findById_append_of_none {l₁ l₂ : List FabricObject} {i : ℕ}
    (h : findById l₁ i = none) : findById (l₁ ++ l₂) i = findById l₂ i := by
  induction l₁ with
  | nil => simp
  | cons a t ih =>
    by_cases ha : a.id = i
    · simp [findById, ha] at h
    · have h' : findById t i = none := by simpa [findById, ha] using h
      simpa [findById, ha] using ih h'

theorem removeById_cons_of_ne {a : FabricObject} {t : List FabricObject} {i : ℕ}
    (h : a.id ≠ i) : removeById (a :: t) i = a :: removeById t i := by
  simp [removeById, h]

theorem mem_removeById {l : List FabricObject} {i : ℕ} {o : FabricObject}
    (h : o ∈ removeById l i) : o ∈ l := by
  induction l with
  | nil => simp [removeById] at h
  | cons a t ih =>
    by_cases ha : a.id = i
    · simp [removeById, ha] at h
      exact List.mem_cons_of_mem _ h
    · simp [removeById, ha] at h
      rcases h with h | h
      · simp [h]
      · exact List.mem_cons_of_mem _ (ih h)

theorem perm_removeById {l : List FabricObject} {i : ℕ} {o : FabricObject}
    (h : findById l i = some o) : l.Perm (o :: removeById l i) := by
  induction l with
  | nil => simp [findById] at h
  | cons a t ih =>
    by_cases ha : a.id = i
    · have h' : a = o := by simpa [findById, ha] using h
      subst h'
      rw [show removeById (a :: t) i = t from by simp [removeById, ha]]
    · simp [findById, ha] at h
      rw [removeById_cons_of_ne ha]
      exact ((ih h).cons a).trans (List.Perm.swap o a _)

theorem findById_removeById {l : List FabricObject} {i j : ℕ} (hij : j ≠ i) :
    findById (removeById l i) j = findById l j := by
  induction l with
  | nil => simp [removeById]
  | cons a t ih =>
    by_cases ha : a.id = i
    · have haj : ¬ a.id = j := fun hh => hij (by rw [← hh]; exact ha)
      rw [show removeById (a :: t) i = t from by simp [removeById, ha]]
      rw [show findById (a :: t) j = findById t j from by simp [findById, haj]]
    · rw [removeById_cons_of_ne ha]
      by_cases haj : a.id = j
      · simp [findById, haj]
      · simp [findById, haj, ih]

theorem idsNodup_cons {a : FabricObject} {t : List FabricObject}
    (h : idsNodup (a :: t)) : (∀ o ∈ t, o.id ≠ a.id) ∧ idsNodup t := by
  rw [idsNodup, List.map_cons, List.nodup_cons] at h
  exact ⟨fun o ho he => h.1 (he ▸ List.mem_map_of_mem _ ho), h.2⟩

theorem idsNodup_inj {l : List FabricObject} (h : idsNodup l) {a b : FabricObject}
    (ha : a ∈ l) (hb : b ∈ l) (hab : a.id = b.id) : a = b := by
  induction l with
  | nil => cases ha
  | cons x t ih =>
    obtain ⟨hne, ht⟩ := idsNodup_cons h
    rcases List.mem_cons.mp ha with rfl | ha' <;> rcases List.mem_cons.mp hb with rfl | hb'
    · rfl
    · exact absurd hab.symm (hne _ hb')
    · exact absurd hab (hne _ ha')
    · exact ih ht ha' hb'

theorem idsNodup_removeById {l : List FabricObject} {i : ℕ}
    (h : idsNodup l) : idsNodup (removeById l i) := by
  induction l with
  | nil => simpa [removeById] using h
  | cons a t ih =>
    obtain ⟨hne, ht⟩ := idsNodup_cons h
    by_cases ha : a.id = i
    · simpa [removeById, ha] using ht
    · rw [removeById_cons_of_ne ha]
      rw [idsNodup, List.map_cons, List.nodup_cons]
      refine ⟨fun hmem => ?_, ih ht⟩
      obtain ⟨o, ho, hoid⟩ := List.mem_map.mp hmem
      exact hne o (mem_removeById ho) hoid

theorem findById_of_mem {l : List FabricObject} (h : idsNodup l) {o : FabricObject}
    (hm : o ∈ l) : findById l o.id = some o := by
  induction l with
  | nil => cases hm
  | cons a t ih =>
    obtain ⟨hne, ht⟩ := idsNodup_cons h
    rcases List.mem_cons.mp hm with rfl | hm'
    · simp [findById]
    · have ha : ¬ a.id = o.id := fun he => (hne o hm') he.symm
      simp [findById, ha]
      exact ih ht hm'

theorem firstImage_mem {l : List FabricObject} {bg : FabricObject}
    (h : firstImage l = some bg) : bg ∈ l := by
  induction l with
  | nil => simp [firstImage] at h
  | cons a t ih =>
    by_cases ha : a.kind = ObjKind.image
    · simp [firstImage, ha] at h
      simp [h]
    · simp [firstImage, ha] at h
      exact List.mem_cons_of_mem _ (ih h)

theorem firstImage_kind {l : List FabricObject} {bg : FabricObject}
    (h : firstImage l = some bg) : bg.kind = ObjKind.image := by
  induction l with
  | nil => simp [firstImage] at h
  | cons a t ih =>
    by_cases ha : a.kind = ObjKind.image
    · simp [firstImage, ha] at h
      rw [← h]; exact ha
    · simp [firstImage, ha] at h
      exact ih h

theorem firstImage_cons_group {a : FabricObject} {t : List FabricObject}
    (h : a.kind ≠ ObjKind.image) : firstImage (a :: t) = firstImage t := by
  simp [firstImage, h]

theorem firstImage_removeById {l : List FabricObject} {i : ℕ} {bg : FabricObject}
    (h : firstImage l = some bg) (hne : bg.id ≠ i)
    (himg : ∀ o ∈ l, o.kind = ObjKind.image → o.id ≠ i) :
    firstImage (removeById l i) = some bg := by
  induction l with
  | nil => simp [firstImage] at h
  | cons a t ih =>
    by_cases ha : a.kind = ObjKind.image
    · have hb : a = bg := by simpa [firstImage, ha] using h
      subst hb
      have : ¬ a.id = i := himg a (List.mem_cons_self _ _) ha
      rw [removeById_cons_of_ne this]
      simp [firstImage, ha]
    · simp [firstImage, ha] at h
      by_cases hai : a.id = i
      · rw [show removeById (a :: t) i = t from by simp [removeById, hai]]
        exact h
      · rw [removeById_cons_of_ne hai, firstImage_cons_group ha]
        exact ih h (fun o ho => himg o (List.mem_cons_of_mem _ ho))

theorem setBaseFilters_cons_image {a : FabricObject} {t : List FabricObject}
    {f : ToneParams} (h : a.kind = ObjKind.image) :
    setBaseFilters (a :: t) f = { a with filters := buildFilters f } :: t := by
  simp [setBaseFilters, h]

theorem setBaseFilters_cons_of_ne {a : FabricObject} {t : List FabricObject}
    {f : ToneParams} (h : a.kind ≠ ObjKind.image) :
    setBaseFilters (a :: t) f = a :: setBaseFilters t f := by
  simp [setBaseFilters, h]

theorem mem_setBaseFilters {l : List FabricObject} {f : ToneParams}
    {o' : FabricObject} (h : o' ∈ setBaseFilters l f) :
    ∃ o ∈ l, o' = o ∨ o' = { o with filters := buildFilters f } := by
  induction l with
  | nil => simp [setBaseFilters] at h
  | cons a t ih =>
    by_cases ha : a.kind = ObjKind.image
    · rw [setBaseFilters_cons_image ha] at h
      rcases List.mem_cons.mp h with h | h
      · exact ⟨a, List.mem_cons_self _ _, Or.inr h⟩
      · exact ⟨o', List.mem_cons_of_mem _ h, Or.inl rfl⟩
    · rw [setBaseFilters_cons_of_ne ha] at h
      rcases List.mem_cons.mp h with h | h
      · exact ⟨a, List.mem_cons_self _ _, Or.inl h⟩
      · obtain ⟨o, ho, hh⟩ := ih h
        exact ⟨o, List.mem_cons_of_mem _ ho, hh⟩

theorem findById_setBaseFilters {l : List FabricObject} {f : ToneParams}
    {i : ℕ} {o : FabricObject} (h : findById l i = some o)
    (hk : o.kind = ObjKind.group) :
    findById (setBaseFilters l f) i = some o := by
  induction l with
  | nil => simp [findById] at h
  | cons a t ih =>
    by_cases hai : a.id = i
    · have hao : a = o := by simpa [findById, hai] using h
      subst hao
      have ha : ¬ a.kind = ObjKind.image := by rw [hk]; simp
      rw [setBaseFilters_cons_of_ne ha]
      simp [findById, hai]
    · simp only [findById, hai, if_false] at h
      by_cases ha : a.kind = ObjKind.image
      · rw [setBaseFilters_cons_image ha]
        simp only [findById]
        rw [if_neg (by simpa using hai)]
        exact h
      · rw [setBaseFilters_cons_of_ne ha]
        simp only [findById, hai, if_false]
        exact ih h

theorem ids_setBaseFilters (l : List FabricObject) (f : ToneParams) :
    (setBaseFilters l f).map (fun o => o.id) = l.map (fun o => o.id) := by
  induction l with
  | nil => simp [setBaseFilters]
  | cons a t ih =>
    by_cases ha : a.kind = ObjKind.image
    · rw [setBaseFilters_cons_image ha]
      simp
    · rw [setBaseFilters_cons_of_ne ha]
      simp [ih]

theorem applyChain_buildFilters_zero (trig : ℚ → ℚ × ℚ)
    (ht : trig 0 = (1, 0)) (p : ℚ × ℚ × ℚ) :
    applyChain trig
      (buildFilters { brightness := 0, contrast := 0, saturation := 0, hue := 0 }) p
      = p := by
  obtain ⟨r, g, b⟩ := p
  simp only [applyChain, buildFilters, List.foldl, applyFilter, ht]
  norm_num

theorem initCanvas_canvas (w h : ℚ) :
    (initCanvas w h).canvas =
      { emptyCanvas with objects := [mkBaseImage w h], backgroundImage := some 0 } :=
  rfl

theorem inv_initCanvas (w h : ℚ) : EditorInv (initCanvas w h) := by
  constructor
  · rfl
  · simp [initCanvas_canvas, emptyCanvas, idsNodup]
  · exact ⟨mkBaseImage w h, rfl, rfl, rfl, rfl, rfl⟩
  · intro o ho _
    have hoe : o = mkBaseImage w h := by
      simpa [initCanvas_canvas, emptyCanvas] using ho
    rw [hoe]
    rfl
  · intro i hi
    simp [initCanvas_canvas, emptyCanvas] at hi
  · rfl

theorem getActiveObject_elim {c : Canvas} {ao : FabricObject}
    (h : c.getActiveObject = some ao) :
    ∃ i, c.activeObject = some i ∧ findById c.objects i = some ao ∧ ao.id = i := by
  unfold Canvas.getActiveObject at h
  cases hai : c.activeObject with
  | none => rw [hai] at h; simp at h
  | some j =>
    rw [hai] at h
    simp only [Option.some_bind] at h
    exact ⟨j, rfl, h, findById_some_id h⟩

/-- Shape of the state after a delete with a non-empty selection and an
unassigned `backgroundObject`: the guard passes and the active object is
removed, whichever object it is. -/
theorem deleteSelectedSticker_eq {s : EditorState} {ao : FabricObject}
    (hbgo : s.canvas.backgroundObject = none)
    (hact : s.canvas.getActiveObject = some ao) :
    deleteSelectedSticker s =
      { s with canvas := s.canvas.remove ao.id, selectedSticker := false } := by
  simp only [deleteSelectedSticker, hact, hbgo]
  simp

theorem deleteSelectedSticker_eq_of_none {s : EditorState}
    (hact : s.canvas.getActiveObject = none) :
    deleteSelectedSticker s = s := by
  unfold deleteSelectedSticker
  rw [hact]

/-- The Delete/Backspace key handler has the same body as the delete
button handler; any other key is ignored. -/
theorem handleKeyDown_eq (s : EditorState) (k : String) :
    handleKeyDown s k =
      if k = "Delete" ∨ k = "Backspace" then deleteSelectedSticker s else s := by
  unfold handleKeyDown deleteSelectedSticker
  by_cases hk : k = "Delete" ∨ k = "Backspace" <;> simp [hk]

theorem inv_delete {s : EditorState} (h : EditorInv s) : EditorInv (deleteSelectedSticker s) := by
  rcases hact : s.canvas.getActiveObject with _ | ao
  · rw [deleteSelectedSticker_eq_of_none hact]; exact h
  · rw [deleteSelectedSticker_eq h.bgNone hact]
    obtain ⟨i, hi, hfind, hid⟩ := getActiveObject_elim hact
    obtain ⟨hi0, -⟩ := h.activeInv i hi
    obtain ⟨bg, hhead, hbk, hb0, hbs, hbe⟩ := h.base
    refine ⟨by simp [Canvas.remove, h.bgNone], ?_, ?_, ?_, ?_,
      by simp [Canvas.remove, h.bgImg]⟩
    · exact idsNodup_removeById h.nodup
    · rcases hobj : s.canvas.objects with _ | ⟨b0, t⟩
      · rw [hobj] at hhead; simp at hhead
      · rw [hobj] at hhead
        simp only [List.head?_cons, Option.some.injEq] at hhead
        subst hhead
        refine ⟨b0, ?_, hbk, hb0, hbs, hbe⟩
        show (removeById s.canvas.objects ao.id).head? = some b0
        rw [hobj, removeById_cons_of_ne (by rw [hb0, hid]; exact fun hh => hi0 hh.symm)]
        simp
    · intro o ho hok
      exact h.onlyBase o (mem_removeById ho) hok
    · intro j hj
      have : s.canvas.activeObject = some ao.id := by rw [hid]; exact hi
      simp only [Canvas.remove, this, if_pos rfl] at hj
      cases hj

theorem inv_key {s : EditorState} (h : EditorInv s) (k : String) :
    EditorInv (handleKeyDown s k) := by
  rw [handleKeyDown_eq]
  by_cases hk : k = "Delete" ∨ k = "Backspace"
  · rw [if_pos hk]; exact inv_delete h
  · rw [if_neg hk]; exact h

theorem inv_filterEffect {s s' : EditorState} (f : ToneParams) (h : EditorInv s)
    (hc : s'.canvas = applyFilterEffect s.canvas f) : EditorInv s' := by
  obtain ⟨bg, hhead, hbk, hb0, hbs, hbe⟩ := h.base
  rcases hobj : s.canvas.objects with _ | ⟨b0, t⟩
  · rw [hobj] at hhead; simp at hhead
  · rw [hobj] at hhead
    simp only [List.head?_cons, Option.some.injEq] at hhead
    subst hhead
    refine ⟨by simp [hc, applyFilterEffect, h.bgNone], ?_, ?_, ?_, ?_,
      by simp [hc, applyFilterEffect, h.bgImg]⟩
    · show idsNodup s'.canvas.objects
      rw [hc]
      show idsNodup (setBaseFilters s.canvas.objects f)
      rw [idsNodup, ids_setBaseFilters]
      exact h.nodup
    · refine ⟨{ b0 with filters := buildFilters f }, ?_, hbk, hb0, hbs, hbe⟩
      rw [hc]
      show (setBaseFilters s.canvas.objects f).head? = _
      rw [hobj, setBaseFilters_cons_image hbk]
      simp
    · intro o ho hok
      rw [hc] at ho
      obtain ⟨o0, ho0, ho0e⟩ := mem_setBaseFilters ho
      rcases ho0e with rfl | rfl
      · exact h.onlyBase o ho0 hok
      · exact h.onlyBase o0 ho0 hok
    · intro j hj
      rw [hc] at hj
      replace hj : s.canvas.activeObject = some j := hj
      obtain ⟨hj0, o, hfo, hko⟩ := h.activeInv j hj
      refine ⟨hj0, o, ?_, hko⟩
      rw [hc]
      exact findById_setBaseFilters hfo hko

theorem inv_tone {s : EditorState} (h : EditorInv s) (k : ToneKey) (v : ℚ) :
    EditorInv (handleFilterChange s k v) :=
  inv_filterEffect (setKey s.filters k v) h rfl

theorem inv_reset {s : EditorState} (h : EditorInv s) : EditorInv (resetFilters s) :=
  inv_filterEffect _ h rfl

theorem inv_place {s : EditorState} {g : FabricObject} (h : EditorInv s)
    (hfresh : findById s.canvas.objects g.id = none)
    (hkind : g.kind = ObjKind.group) : EditorInv (addSticker s g) := by
  have hfr : ∀ o ∈ s.canvas.objects, o.id ≠ g.id := findById_eq_none.mp hfresh
  obtain ⟨bg, hhead, hbk, hb0, hbs, hbe⟩ := h.base
  rcases hobj : s.canvas.objects with _ | ⟨b0, t⟩
  · rw [hobj] at hhead; simp at hhead
  · rw [hobj] at hhead
    simp only [List.head?_cons, Option.some.injEq] at hhead
    subst hhead
    have hg2id : (stickerSet g s.canvas.width s.canvas.height).id = g.id := rfl
    have hg2k : (stickerSet g s.canvas.width s.canvas.height).kind = g.kind := rfl
    refine ⟨?_, ?_, ?_, ?_, ?_, ?_⟩
    · show s.canvas.backgroundObject = none
      exact h.bgNone
    · show idsNodup (s.canvas.objects ++ [stickerSet g s.canvas.width s.canvas.height])
      rw [idsNodup, List.map_append]
      refine List.Nodup.append h.nodup (by simp) ?_
      intro x hx hx2
      simp only [List.map_cons, List.map_nil, List.mem_singleton, hg2id] at hx2
      obtain ⟨o, ho, hoe⟩ := List.mem_map.mp hx
      exact hfr o ho (by rw [hoe, hx2])
    · refine ⟨b0, ?_, hbk, hb0, hbs, hbe⟩
      show (s.canvas.objects ++ _).head? = _
      rw [hobj]
      simp
    · intro o ho hok
      show o.id = 0
      rcases List.mem_append.mp ho with ho | ho
      · exact h.onlyBase o ho hok
      · simp only [List.mem_singleton] at ho
        rw [ho, hg2k] at hok
        rw [hkind] at hok
        cases hok
    · intro j hj
      replace hj : some (stickerSet g s.canvas.width s.canvas.height).id = some j := hj
      rw [hg2id] at hj
      injection hj with hj
      subst hj
      have hg0 : g.id ≠ 0 := by
        intro hgz
        exact hfr b0 (by rw [hobj]; exact List.mem_cons_self _ _) (by rw [hb0, hgz])
      refine ⟨hg0, stickerSet g s.canvas.width s.canvas.height, ?_, by rw [hg2k]; exact hkind⟩
      show findById (s.canvas.objects ++ [_]) g.id = _
      rw [findById_append_of_none hfresh]
      simp [findById, hg2id]
    · show s.canvas.backgroundImage = some 0
      exact h.bgImg

/-- `sendToBack` when the object is present. -/
theorem sendToBack_eq_of_find {c : Canvas} {i : ℕ} {o : FabricObject}
    (h : findById c.objects i = some o) :
    c.sendToBack i = { c with objects := o :: removeById c.objects i } := by
  unfold Canvas.sendToBack
  rw [h]

/-- The two-step reorder performed by `sendStickerToBack` on a selected
overlay: step 1 puts the active object at the very back; step 2 finds the
first `fabric.Image` and re-sends it to the very back, leaving the canvas
as `base :: overlay :: rest`. -/
theorem sendStickerToBack_eq {s : EditorState} {ao bg : FabricObject}
    (hnd : idsNodup s.canvas.objects)
    (hbgo : s.canvas.backgroundObject = none)
    (hact : s.canvas.getActiveObject = some ao)
    (hk : ao.kind = ObjKind.group)
    (hbg : firstImage s.canvas.objects = some bg) :
    (s.canvas.sendToBack ao.id).objects
        = ao :: removeById s.canvas.objects ao.id ∧
    sendStickerToBack s =
      { s with canvas :=
          { s.canvas with objects :=
              bg :: ao :: removeById (removeById s.canvas.objects ao.id) bg.id } } := by
  obtain ⟨i, hi, hfind, hid⟩ := getActiveObject_elim hact
  have hfind' : findById s.canvas.objects ao.id = some ao := by rw [hid]; exact hfind
  have hmem_ao : ao ∈ s.canvas.objects := findById_some_mem hfind'
  have hbk : bg.kind = ObjKind.image := firstImage_kind hbg
  have hmem_bg : bg ∈ s.canvas.objects := firstImage_mem hbg
  have hne_id : bg.id ≠ ao.id := by
    intro he
    have : bg = ao := idsNodup_inj hnd hmem_bg hmem_ao he
    rw [this, hk] at hbk
    cases hbk
  have hne' : ¬ ao.id = bg.id := fun hh => hne_id hh.symm
  have h1 : s.canvas.sendToBack ao.id =
      { s.canvas with objects := ao :: removeById s.canvas.objects ao.id } :=
    sendToBack_eq_of_find hfind'
  have himg : ∀ o ∈ s.canvas.objects, o.kind = ObjKind.image → o.id ≠ ao.id := by
    intro o ho hok he
    have : o = ao := idsNodup_inj hnd ho hmem_ao he
    rw [this, hk] at hok
    cases hok
  have hfi : firstImage (s.canvas.sendToBack ao.id).objects = some bg := by
    rw [h1]
    show firstImage (ao :: removeById s.canvas.objects ao.id) = some bg
    rw [firstImage_cons_group (by rw [hk]; simp)]
    exact firstImage_removeById hbg hne_id himg
  have hfind2 : findById (ao :: removeById s.canvas.objects ao.id) bg.id = some bg := by
    rw [show findById (ao :: removeById s.canvas.objects ao.id) bg.id
          = findById (removeById s.canvas.objects ao.id) bg.id from by
        simp [findById, hne']]
    rw [findById_removeById hne_id]
    exact findById_of_mem hnd hmem_bg
  have h2 : (s.canvas.sendToBack ao.id).sendToBack bg.id =
      { s.canvas with objects :=
          bg :: ao :: removeById (removeById s.canvas.objects ao.id) bg.id } := by
    rw [h1]
    rw [sendToBack_eq_of_find
        (show findById ({ s.canvas with
            objects := ao :: removeById s.canvas.objects ao.id } : Canvas).objects bg.id
          = some bg from hfind2)]
    rw [show removeById (ao :: removeById s.canvas.objects ao.id) bg.id
          = ao :: removeById (removeById s.canvas.objects ao.id) bg.id from
        removeById_cons_of_ne hne']
  refine ⟨by rw [h1], ?_⟩
  have hguard : ¬ s.canvas.backgroundObject = some ao.id := by rw [hbgo]; simp
  simp only [sendStickerToBack, hact, hguard, if_false]
  rw [hfi]
  show { s with canvas := (s.canvas.sendToBack ao.id).sendToBack bg.id } = _
  rw [h2]

theorem inv_toBack {s : EditorState} (h : EditorInv s) :
    EditorInv (sendStickerToBack s) := by
  rcases hact : s.canvas.getActiveObject with _ | ao
  · have : sendStickerToBack s = s := by
      unfold sendStickerToBack
      rw [hact]
    rw [this]; exact h
  · obtain ⟨i, hi, hfind, hid⟩ := getActiveObject_elim hact
    obtain ⟨hi0, o', hfo', hko'⟩ := h.activeInv i hi
    have hk : ao.kind = ObjKind.group := by
      have : o' = ao := by rw [hfo'] at hfind; injection hfind
      rw [← this]; exact hko'
    obtain ⟨bg, hhead, hbk, hb0, hbs, hbe⟩ := h.base
    rcases hobj : s.canvas.objects with _ | ⟨b0, t⟩
    · rw [hobj] at hhead; simp at hhead
    · rw [hobj] at hhead
      simp only [List.head?_cons, Option.some.injEq] at hhead
      subst hhead
      have hfi : firstImage s.canvas.objects = some b0 := by
        rw [hobj]
        simp [firstImage, hbk]
      obtain ⟨-, hstate⟩ := sendStickerToBack_eq h.nodup h.bgNone hact hk hfi
      rw [hstate]
      have hperm : s.canvas.objects.Perm
          (b0 :: ao :: removeById (removeById s.canvas.objects ao.id) b0.id) := by
        have hfind' : findById s.canvas.objects ao.id = some ao := by
          rw [hid]; exact hfind
        have p1 := perm_removeById hfind'
        have hmem_b0 : b0 ∈ s.canvas.objects := by
          rw [hobj]; exact List.mem_cons_self _ _
        have hne_id : b0.id ≠ ao.id := by
          rw [hb0, hid]; exact fun hh => hi0 hh.symm
        have hfb0 : findById (removeById s.canvas.objects ao.id) b0.id = some b0 := by
          rw [findById_removeById hne_id]
          exact findById_of_mem h.nodup hmem_b0
        have p2 := perm_removeById hfb0
        exact (p1.trans (p2.cons ao)).trans (List.Perm.swap b0 ao _)
      refine ⟨h.bgNone, ?_, ⟨b0, rfl, hbk, hb0, hbs, hbe⟩, ?_, ?_, h.bgImg⟩
      · show idsNodup _
        rw [idsNodup]
        have hmap : (s.canvas.objects.map (fun o : FabricObject => o.id)).Perm
            ((b0 :: ao :: removeById (removeById s.canvas.objects ao.id) b0.id).map
              (fun o : FabricObject => o.id)) := hperm.map _
        exact hmap.nodup_iff.mp h.nodup
      · intro o ho hok
        exact h.onlyBase o (hperm.mem_iff.mpr ho) hok
      · intro j hj
        replace hj : s.canvas.activeObject = some j := hj
        have hji : j = i := by rw [hi] at hj; injection hj with hj; exact hj.symm
        subst hji
        refine ⟨hi0, ao, ?_, hk⟩
        show findById (b0 :: ao :: _) j = some ao
        have hne : ¬ b0.id = j := by
          rw [hb0]; exact fun hh => hi0 hh.symm
        simp only [findById, hne, if_false]
        rw [if_pos hid]

theorem inv_select {s : EditorState} {o : FabricObject} (h : EditorInv s)
    (hmem : o ∈ s.canvas.objects) (hsel : o.selectable = true) :
    EditorInv (selectObject s o.id) := by
  obtain ⟨bg, hhead, hbk, hb0, hbs, hbe⟩ := h.base
  rcases hobj : s.canvas.objects with _ | ⟨b0, t⟩
  · rw [hobj] at hhead; simp at hhead
  · rw [hobj] at hhead
    simp only [List.head?_cons, Option.some.injEq] at hhead
    subst hhead
    have hmem_b0 : b0 ∈ s.canvas.objects := by
      rw [hobj]; exact List.mem_cons_self _ _
    have ho0 : o.id ≠ 0 := by
      intro he
      have : o = b0 := idsNodup_inj h.nodup hmem hmem_b0 (by rw [he, hb0])
      rw [this, hbs] at hsel
      cases hsel
    have hkind : o.kind = ObjKind.group := by
      cases hko : o.kind with
      | image => exact absurd (h.onlyBase o hmem hko) ho0
      | group => rfl
    refine ⟨h.bgNone, h.nodup,
      ⟨b0, by show s.canvas.objects.head? = some b0; rw [hobj]; rfl, hbk, hb0, hbs, hbe⟩,
      h.onlyBase, ?_, h.bgImg⟩
    intro j hj
    replace hj : some o.id = some j := hj
    injection hj with hj
    subst hj
    exact ⟨ho0, o, findById_of_mem h.nodup hmem, hkind⟩

theorem inv_deselect {s : EditorState} (h : EditorInv s) :
    EditorInv (clearSelection s) := by
  refine ⟨h.bgNone, h.nodup, h.base, h.onlyBase, ?_, h.bgImg⟩
  intro j hj
  cases hj

theorem inv_step {s t : EditorState} (h : EditorInv s) (hst : Step s t) :
    EditorInv t := by
  cases hst with
  | place g hfresh hkind => exact inv_place h hfresh hkind
  | placeFail => exact h
  | key k => exact inv_key h k
  | deleteBtn => exact inv_delete h
  | toBack => exact inv_toBack h
  | tone k v => exact inv_tone h k v
  | reset => exact inv_reset h
  | select o hmem hsel => exact inv_select h hmem hsel
  | deselect => exact inv_deselect h

theorem inv_reachable {w h : ℚ} {s : EditorState} (hs : Reachable w h s) :
    EditorInv s := by
  induction hs with
  | refl => exact inv_initCanvas w h
  | tail _ hstep ih => exact inv_step ih hstep

/-! ## Claim theorems -/

/-- **C7.** After surface initialization, exactly one Base Layer exists
(the object list is exactly the one base image); its display scale equals
`min(surfaceWidth / imageWidth, surfaceHeight / imageHeight)` on both
axes, it is centered at the surface midpoint with center origin, it is
marked non-interactive (`selectable: false`, `evented: false`, hence not
selectable), it sits at the lowest z-order, and nothing is selected. -/
theorem init_exactly_one_centered_base (w h : ℚ) :
    (initCanvas w h).canvas.objects = [mkBaseImage w h] ∧
    (mkBaseImage w h).kind = ObjKind.image ∧
    (mkBaseImage w h).scaleX
      = min ((initCanvas w h).canvas.width / w) ((initCanvas w h).canvas.height / h) ∧
    (mkBaseImage w h).scaleY = (mkBaseImage w h).scaleX ∧
    (mkBaseImage w h).left = (initCanvas w h).canvas.width / 2 ∧
    (mkBaseImage w h).top = (initCanvas w h).canvas.height / 2 ∧
    (mkBaseImage w h).originX = "center" ∧
    (mkBaseImage w h).originY = "center" ∧
    (mkBaseImage w h).selectable = false ∧
    (mkBaseImage w h).evented = false ∧
    (initCanvas w h).canvas.objects.head? = some (mkBaseImage w h) ∧
    (initCanvas w h).canvas.activeObject = none :=
  ⟨rfl, rfl, rfl, rfl, rfl, rfl, rfl, rfl, rfl, rfl, rfl, rfl⟩

/-- **C6.** The preprocessor returns the image dimensions unchanged when
neither exceeds the bound; otherwise the output's longer dimension equals
the bound and the aspect ratio is preserved within rounding tolerance
(the cross-multiplied ratio error is below one denominator unit, i.e. the
ratio deviates by less than `1 / maxSize`). -/
theorem processImage_dims_contract (w h maxSize : ℕ) :
    (max w h ≤ maxSize → processImageDims w h maxSize = (w, h)) ∧
    (maxSize < max w h →
      max (processImageDims w h maxSize).1 (processImageDims w h maxSize).2 = maxSize ∧
      (((processImageDims w h maxSize).1 : ℤ) * h
        - ((processImageDims w h maxSize).2 : ℤ) * w).natAbs < max w h) := by
  constructor
  · intro hle
    unfold processImageDims
    rw [if_neg (by omega)]
  · intro hgt
    have hpe : processImageDims w h maxSize =
        if h ≥ w then (maxSize * w / h, maxSize) else (maxSize, maxSize * h / w) := by
      unfold processImageDims
      rw [if_pos hgt]
    by_cases hwh : h ≥ w
    · rw [hpe, if_pos hwh]
      have hh : 0 < h := by omega
      have hle2 : maxSize * w / h ≤ maxSize := by
        calc maxSize * w / h ≤ maxSize * h / h :=
              Nat.div_le_div_right (Nat.mul_le_mul_left _ hwh)
          _ = maxSize := Nat.mul_div_cancel maxSize hh
      constructor
      · show max (maxSize * w / h) maxSize = maxSize
        omega
      · show (((maxSize * w / h : ℕ) : ℤ) * h - (maxSize : ℤ) * w).natAbs < max w h
        have hmod := Nat.div_add_mod (maxSize * w) h
        have hlt : maxSize * w % h < h := Nat.mod_lt _ hh
        have hcast : ((maxSize : ℤ) * w) = (h : ℤ) * ((maxSize * w / h : ℕ) : ℤ)
            + ((maxSize * w % h : ℕ) : ℤ) := by
          exact_mod_cast hmod.symm
        have hval : ((maxSize * w / h : ℕ) : ℤ) * h - (maxSize : ℤ) * w
            = -((maxSize * w % h : ℕ) : ℤ) := by linarith
        rw [hval]
        omega
    · rw [hpe, if_neg hwh]
      have hw0 : 0 < w := by omega
      have hle2 : maxSize * h / w ≤ maxSize := by
        calc maxSize * h / w ≤ maxSize * w / w :=
              Nat.div_le_div_right (Nat.mul_le_mul_left _ (by omega))
          _ = maxSize := Nat.mul_div_cancel maxSize hw0
      constructor
      · show max maxSize (maxSize * h / w) = maxSize
        omega
      · show ((maxSize : ℤ) * h - ((maxSize * h / w : ℕ) : ℤ) * w).natAbs < max w h
        have hmod := Nat.div_add_mod (maxSize * h) w
        have hlt : maxSize * h % w < w := Nat.mod_lt _ hw0
        have hcast : ((maxSize : ℤ) * h) = (w : ℤ) * ((maxSize * h / w : ℕ) : ℤ)
            + ((maxSize * h % w : ℕ) : ℤ) := by
          exact_mod_cast hmod.symm
        have hval : (maxSize : ℤ) * h - ((maxSize * h / w : ℕ) : ℤ) * w
            = ((maxSize * h % w : ℕ) : ℤ) := by linarith
        rw [hval]
        omega

/-- Witness for C6: an image within the bound passes through unchanged; a
5000 × 2000 image is scaled so its longer dimension is 2048 with the
cross-multiplied aspect error below the tolerance. -/
theorem processImage_dims_contract_witness :
    processImageDims 1000 500 2048 = (1000, 500) ∧
    (max (processImageDims 5000 2000 2048).1 (processImageDims 5000 2000 2048).2 = 2048 ∧
      (((processImageDims 5000 2000 2048).1 : ℤ) * 2000
        - ((processImageDims 5000 2000 2048).2 : ℤ) * 5000).natAbs < max 5000 2000) :=
  ⟨(processImage_dims_contract 1000 500 2048).1 (by decide),
   (processImage_dims_contract 5000 2000 2048).2 (by decide)⟩

/-- **C3.** The spec requires delete to be a no-op when the "selected"
object is the Base Layer, with the guard present as a defensive check.
The code's guard compares the active object against the declared but
never-assigned `backgroundObject` property, so it passes for every
non-empty selection: on a state whose active object is the Base Layer
itself, both the delete control and the Delete key remove the Base Layer
(the surface becomes empty), contradicting the required no-op.  The code
contradicts its own comment ("Make sure we're not deleting the background
image"). -/
theorem delete_removes_selected_base :
    baseSelected.canvas.getActiveObject = some (mkBaseImage 4 3) ∧
    (deleteSelectedSticker baseSelected).canvas.objects = [] ∧
    (handleKeyDown baseSelected "Delete").canvas.objects = [] ∧
    (handleKeyDown baseSelected "Backspace").canvas.objects = [] :=
  ⟨rfl, rfl, rfl, rfl⟩

/-- **C8 counterexample.** On a failed sticker load nothing is logged by
the placement path (and the state is unchanged): the claim's "reported
via a diagnostic log" does not happen — `addSticker` registers no error
handler and contains no logging call. -/
theorem placement_failure_unreported :
    (addStickerOutcome (initCanvas 4 3) none).2 = [] ∧
    (addStickerOutcome (initCanvas 4 3) none).1 = initCanvas 4 3 :=
  ⟨rfl, rfl⟩

/-- **C8 amended.** For every placement action whose vector-graphic load
fails, the surface does not crash, no new element is added, the selection
is unchanged, the surface is otherwise unaffected and no retry is
attempted — but the failure is not reported anywhere: the placement path
emits no diagnostic log. -/
theorem placement_failure_soft (s : EditorState) :
    addStickerOutcome s none = (s, []) := rfl

/-- **C1.** On any change to one of the four tone parameters, the
recompute effect replaces the Base Layer's existing filter chain with
exactly four freshly constructed filters in the fixed order brightness,
contrast, saturation, hue-rotation, each parameterized by the current
value of its parameter (neutral/zero values included), and leaves every
Overlay Element — the whole rest of the object list — completely
untouched. -/
theorem toneChange_rebuilds_exact_chain (w h : ℚ) (s : EditorState)
    (hs : Reachable w h s) (k : ToneKey) (v : ℚ) :
    ∃ bg rest, s.canvas.objects = bg :: rest ∧ bg.kind = ObjKind.image ∧
      (handleFilterChange s k v).canvas.objects
        = { bg with filters :=
              [FilterF.brightness (setKey s.filters k v).brightness,
               FilterF.contrast (setKey s.filters k v).contrast,
               FilterF.saturation (setKey s.filters k v).saturation,
               FilterF.hueRotation (setKey s.filters k v).hue] } :: rest ∧
      (handleFilterChange s k v).filters = setKey s.filters k v := by
  obtain ⟨bg, hhead, hbk, -, -, -⟩ := (inv_reachable hs).base
  rcases hobj : s.canvas.objects with _ | ⟨b0, t⟩
  · rw [hobj] at hhead; simp at hhead
  · rw [hobj] at hhead
    simp only [List.head?_cons, Option.some.injEq] at hhead
    subst hhead
    refine ⟨b0, t, rfl, hbk, ?_, rfl⟩
    show setBaseFilters s.canvas.objects (setKey s.filters k v) = _
    rw [hobj, setBaseFilters_cons_image hbk]
    rfl

/-- Witness for C1 at a concrete state: raising brightness to 1/2 right
after initialization sets the base chain to exactly the four filters and
keeps the (empty) overlay list untouched. -/
theorem toneChange_rebuilds_exact_chain_witness :
    ∃ bg rest, (initCanvas 4 3).canvas.objects = bg :: rest ∧
      bg.kind = ObjKind.image ∧
      (handleFilterChange (initCanvas 4 3) ToneKey.brightness (1/2)).canvas.objects
        = { bg with filters :=
              [FilterF.brightness
                 (setKey (initCanvas 4 3).filters ToneKey.brightness (1/2)).brightness,
               FilterF.contrast
                 (setKey (initCanvas 4 3).filters ToneKey.brightness (1/2)).contrast,
               FilterF.saturation
                 (setKey (initCanvas 4 3).filters ToneKey.brightness (1/2)).saturation,
               FilterF.hueRotation
                 (setKey (initCanvas 4 3).filters ToneKey.brightness (1/2)).hue] } :: rest ∧
      (handleFilterChange (initCanvas 4 3) ToneKey.brightness (1/2)).filters
        = setKey (initCanvas 4 3).filters ToneKey.brightness (1/2) :=
  toneChange_rebuilds_exact_chain 4 3 (initCanvas 4 3) Relation.ReflTransGen.refl
    ToneKey.brightness (1/2)

/-- Tone-parameter changes from an initialized surface stay reachable. -/
theorem reachable_tone_foldl {w h : ℚ} {s : EditorState} (hs : Reachable w h s)
    (steps : List (ToneKey × ℚ)) :
    Reachable w h (steps.foldl (fun t kv => handleFilterChange t kv.1 kv.2) s) := by
  induction steps generalizing s with
  | nil => exact hs
  | cons kv rest ih =>
    exact ih (hs.tail (Step.tone s kv.1 kv.2))

/-- After a reset, the Base Layer chain is the four-filter chain built
from all-zero parameters. -/
theorem baseFilterChain_reset {s : EditorState} (h : EditorInv s) :
    baseFilterChain (resetFilters s)
      = buildFilters { brightness := 0, contrast := 0, saturation := 0, hue := 0 } := by
  obtain ⟨bg, hhead, hbk, -, -, -⟩ := h.base
  rcases hobj : s.canvas.objects with _ | ⟨b0, t⟩
  · rw [hobj] at hhead; simp at hhead
  · rw [hobj] at hhead
    simp only [List.head?_cons, Option.some.injEq] at hhead
    subst hhead
    show ((firstImage (setBaseFilters s.canvas.objects zeroTone)).map
        (fun o => o.filters)).getD [] = _
    rw [hobj, setBaseFilters_cons_image hbk]
    rw [show firstImage ({ b0 with filters := buildFilters zeroTone } :: t)
          = some { b0 with filters := buildFilters zeroTone } from by
        simp [firstImage, hbk]]
    rfl

/-- **C2.** Any sequence of tone-parameter assignments followed by a
reset: the reset is nothing but parameter assignment (all four to zero)
followed by the same recompute path as every other change, the resulting
Base Layer chain is the four zero-parameter filters, and that chain is
pixel-identical to the (empty) chain the Base Layer carries immediately
after initialization. -/
theorem reset_restores_initial_chain (w h : ℚ) (steps : List (ToneKey × ℚ))
    (trig : ℚ → ℚ × ℚ) (htr : trig 0 = (1, 0)) (p : ℚ × ℚ × ℚ) :
    resetFilters (steps.foldl (fun t kv => handleFilterChange t kv.1 kv.2) (initCanvas w h))
        = runFilterEffect
            { steps.foldl (fun t kv => handleFilterChange t kv.1 kv.2) (initCanvas w h) with
              filters := { brightness := 0, contrast := 0, saturation := 0, hue := 0 } } ∧
    (resetFilters (steps.foldl (fun t kv => handleFilterChange t kv.1 kv.2)
        (initCanvas w h))).filters
      = { brightness := 0, contrast := 0, saturation := 0, hue := 0 } ∧
    baseFilterChain (resetFilters (steps.foldl (fun t kv => handleFilterChange t kv.1 kv.2)
        (initCanvas w h)))
      = buildFilters { brightness := 0, contrast := 0, saturation := 0, hue := 0 } ∧
    applyChain trig
      (baseFilterChain (resetFilters (steps.foldl (fun t kv => handleFilterChange t kv.1 kv.2)
        (initCanvas w h)))) p
      = applyChain trig (baseFilterChain (initCanvas w h)) p := by
  have hinv : EditorInv (steps.foldl (fun t kv => handleFilterChange t kv.1 kv.2)
      (initCanvas w h)) :=
    inv_reachable (reachable_tone_foldl Relation.ReflTransGen.refl steps)
  refine ⟨rfl, rfl, baseFilterChain_reset hinv, ?_⟩
  rw [baseFilterChain_reset hinv]
  rw [show baseFilterChain (initCanvas w h) = [] from rfl]
  rw [applyChain_buildFilters_zero trig htr p]
  rfl

/-- Witness for C2: set brightness to 1/2, reset; on the sample pixel
(10, 20, 30) the resulting chain acts as the identity, matching the
post-initialization chain. -/
theorem reset_restores_initial_chain_witness :
    resetFilters ([((ToneKey.brightness : ToneKey), (1/2 : ℚ))].foldl
        (fun t kv => handleFilterChange t kv.1 kv.2) (initCanvas 4 3))
        = runFilterEffect
            { [((ToneKey.brightness : ToneKey), (1/2 : ℚ))].foldl
                (fun t kv => handleFilterChange t kv.1 kv.2) (initCanvas 4 3) with
              filters := { brightness := 0, contrast := 0, saturation := 0, hue := 0 } } ∧
    (resetFilters ([((ToneKey.brightness : ToneKey), (1/2 : ℚ))].foldl
        (fun t kv => handleFilterChange t kv.1 kv.2) (initCanvas 4 3))).filters
      = { brightness := 0, contrast := 0, saturation := 0, hue := 0 } ∧
    baseFilterChain (resetFilters ([((ToneKey.brightness : ToneKey), (1/2 : ℚ))].foldl
        (fun t kv => handleFilterChange t kv.1 kv.2) (initCanvas 4 3)))
      = buildFilters { brightness := 0, contrast := 0, saturation := 0, hue := 0 } ∧
    applyChain (fun _ => ((1 : ℚ), (0 : ℚ)))
      (baseFilterChain (resetFilters ([((ToneKey.brightness : ToneKey), (1/2 : ℚ))].foldl
        (fun t kv => handleFilterChange t kv.1 kv.2) (initCanvas 4 3))))
      ((10 : ℚ), (20 : ℚ), (30 : ℚ))
      = applyChain (fun _ => ((1 : ℚ), (0 : ℚ))) (baseFilterChain (initCanvas 4 3))
        ((10 : ℚ), (20 : ℚ), (30 : ℚ)) :=
  reset_restores_initial_chain 4 3 [(ToneKey.brightness, 1/2)]
    (fun _ => ((1 : ℚ), (0 : ℚ))) rfl ((10 : ℚ), (20 : ℚ), (30 : ℚ))

/-- **C4.** Send-to-back on a selected Overlay Element is two-step: step 1
sends the selected element to the lowest z-order (it becomes the head of
the object list); step 2 re-sends the Base Layer (the first
`fabric.Image`) to the very back, so that afterwards the object list is
`base :: overlay :: rest` — the selected overlay is at the lowest z-order
among all Overlay Elements and the Base Layer is strictly below every
Overlay Element. -/
theorem sendToBack_two_step (s : EditorState) (ao bg : FabricObject)
    (hnd : idsNodup s.canvas.objects)
    (hbgo : s.canvas.backgroundObject = none)
    (hact : s.canvas.getActiveObject = some ao)
    (hk : ao.kind = ObjKind.group)
    (hbg : firstImage s.canvas.objects = some bg) :
    (s.canvas.sendToBack ao.id).objects.head? = some ao ∧
    bg.kind = ObjKind.image ∧
    ∃ rest, (sendStickerToBack s).canvas.objects = bg :: ao :: rest := by
  obtain ⟨h1, h2⟩ := sendStickerToBack_eq hnd hbgo hact hk hbg
  refine ⟨by rw [h1]; rfl, firstImage_kind hbg, ?_⟩
  exact ⟨_, by rw [h2]⟩

/-- Witness for C4: the freshly placed sticker is selected; send-to-back
leaves the canvas as `base :: sticker :: []`. -/
theorem sendToBack_two_step_witness :
    ((oneStickerState.canvas.sendToBack
        (stickerSet sampleSticker 1200 960).id).objects.head?
      = some (stickerSet sampleSticker 1200 960)) ∧
    (mkBaseImage 4 3).kind = ObjKind.image ∧
    ∃ rest, (sendStickerToBack oneStickerState).canvas.objects
        = mkBaseImage 4 3 :: stickerSet sampleSticker 1200 960 :: rest :=
  sendToBack_two_step oneStickerState (stickerSet sampleSticker 1200 960)
    (mkBaseImage 4 3) (by unfold idsNodup; decide) rfl rfl rfl rfl

/-- **C9.** The `backgroundObject` property consulted by both delete
guards is declared but never assigned: it is `none` in every reachable
state.  Consequently, on any state with that property unassigned and a
non-empty selection, the guard comparison passes and delete removes the
active object — whichever object it is, the Base Layer included.  The
Base Layer's actual protection is that it is marked `selectable: false`
and `evented: false` in every reachable state. -/
theorem backgroundObject_never_assigned (w h : ℚ) (s : EditorState)
    (hs : Reachable w h s) (t : EditorState)
    (hbg : t.canvas.backgroundObject = none) (ao : FabricObject)
    (hact : t.canvas.getActiveObject = some ao) :
    s.canvas.backgroundObject = none ∧
    deleteSelectedSticker t
      = { t with canvas := t.canvas.remove ao.id, selectedSticker := false } ∧
    (∃ bg, s.canvas.objects.head? = some bg ∧ bg.kind = ObjKind.image ∧
      bg.selectable = false ∧ bg.evented = false) := by
  have hinv := inv_reachable hs
  obtain ⟨bg, hh1, hh2, -, hh4, hh5⟩ := hinv.base
  exact ⟨hinv.bgNone, deleteSelectedSticker_eq hbg hact, bg, hh1, hh2, hh4, hh5⟩

/-- Witness for C9, taking for `t` the state whose active object is the
Base Layer itself: the guard passes and delete removes the Base Layer. -/
theorem backgroundObject_never_assigned_witness :
    (initCanvas 4 3).canvas.backgroundObject = none ∧
    deleteSelectedSticker baseSelected
      = ({ baseSelected with
            canvas := baseSelected.canvas.remove 0,
            selectedSticker := false }) ∧
    (∃ bg, (initCanvas 4 3).canvas.objects.head? = some bg ∧
      bg.kind = ObjKind.image ∧ bg.selectable = false ∧ bg.evented = false) :=
  backgroundObject_never_assigned 4 3 (initCanvas 4 3) Relation.ReflTransGen.refl
    baseSelected rfl (mkBaseImage 4 3) rfl

/-- **C10.** At initialization the single base image instance is
registered twice: it is the head of the canvas's ordered element list
(`canvas.add`) and the same instance (same reference/id) is also set as
the canvas's dedicated background image (`setBackgroundImage`).  In every
reachable state the base image is among the elements returned by
`getObjects`, still doubles as the registered background image, and is
the object found by the first-`fabric.Image` searches used by the tone
filter effect and by `sendStickerToBack`. -/
theorem base_image_registered_twice (w h : ℚ) (s : EditorState)
    (hs : Reachable w h s) :
    (initCanvas w h).canvas.objects.head? = some (mkBaseImage w h) ∧
    (initCanvas w h).canvas.backgroundImage = some (mkBaseImage w h).id ∧
    (∃ bg, bg ∈ s.canvas.objects ∧ s.canvas.backgroundImage = some bg.id ∧
      firstImage s.canvas.objects = some bg ∧ bg.kind = ObjKind.image) := by
  have hinv := inv_reachable hs
  obtain ⟨bg, hh1, hh2, hh3, -, -⟩ := hinv.base
  rcases hobj : s.canvas.objects with _ | ⟨b0, t⟩
  · rw [hobj] at hh1; simp at hh1
  · rw [hobj] at hh1
    simp only [List.head?_cons, Option.some.injEq] at hh1
    subst hh1
    refine ⟨rfl, rfl, b0, List.mem_cons_self _ _, ?_, ?_, hh2⟩
    · rw [hinv.bgImg, hh3]
    · simp [firstImage, hh2]

/-- Witness for C10 at the initial state. -/
theorem base_image_registered_twice_witness :
    (initCanvas 4 3).canvas.objects.head? = some (mkBaseImage 4 3) ∧
    (initCanvas 4 3).canvas.backgroundImage = some (mkBaseImage 4 3).id ∧
    (∃ bg, bg ∈ (initCanvas 4 3).canvas.objects ∧
      (initCanvas 4 3).canvas.backgroundImage = some bg.id ∧
      firstImage (initCanvas 4 3).canvas.objects = some bg ∧
      bg.kind = ObjKind.image) :=
  base_image_registered_twice 4 3 (initCanvas 4 3) Relation.ReflTransGen.refl

/-- Shape of the state after a sequence of successful placements: the new
stickers are appended in order above everything already present, and the
last placement is the active selection. -/
theorem foldl_addSticker_spec (gs : List FabricObject) (s : EditorState)
    (hw : s.canvas.width = 1200) (hh : s.canvas.height = 960) :
    (gs.foldl addSticker s).canvas.objects
        = s.canvas.objects ++ gs.map (fun g => stickerSet g 1200 960) ∧
    (gs.foldl addSticker s).canvas.width = 1200 ∧
    (gs.foldl addSticker s).canvas.height = 960 ∧
    (∀ g, gs.getLast? = some g →
      (gs.foldl addSticker s).canvas.activeObject = some g.id ∧
      (gs.foldl addSticker s).selectedSticker = true) := by
  induction gs generalizing s with
  | nil => exact ⟨by simp, hw, hh, by intro g hg; cases hg⟩
  | cons g rest ih =>
    obtain ⟨h1, h2, h3, h4⟩ := ih (addSticker s g) hw hh
    refine ⟨?_, h2, h3, ?_⟩
    · rw [List.foldl_cons, h1,
        show (addSticker s g).canvas.objects
            = s.canvas.objects ++ [stickerSet g s.canvas.width s.canvas.height] from rfl,
        hw, hh]
      simp
    · intro g' hg'
      cases rest with
      | nil =>
        have hgg : g = g' := by
          have : ([g].getLast?) = some g := rfl
          rw [this] at hg'
          injection hg'
        subst hgg
        exact ⟨rfl, rfl⟩
      | cons a as =>
        rw [List.getLast?_cons_cons] at hg'
        exact h4 g' hg'

/-- A list of sticker groups contributes exactly its length to the
overlay count. -/
theorem overlayCount_map_stickerSet (gs : List FabricObject)
    (hk : ∀ g ∈ gs, g.kind = ObjKind.group) :
    overlayCount (gs.map (fun g => stickerSet g 1200 960)) = gs.length := by
  induction gs with
  | nil => rfl
  | cons g rest ih =>
    have hg : (stickerSet g 1200 960).kind = ObjKind.group :=
      hk g (List.mem_cons_self _ _)
    show (if (stickerSet g 1200 960).kind = ObjKind.group then 1 else 0)
        + overlayCount (rest.map (fun g => stickerSet g 1200 960)) = rest.length + 1
    rw [if_pos hg, ih (fun g2 hg2 => hk g2 (List.mem_cons_of_mem _ hg2))]
    omega

/-- **C5.** Every successful placement adds exactly one Overlay Element —
centered on the surface, uniformly scaled so its width footprint is 100
logical units, with the specified handle styling — and makes it the
active selection; after any sequence of `N` placements from an
initialized surface there are exactly `N` Overlay Elements, all strictly
above the Base Layer in z-order (the object list is the Base Layer
followed by the `N` styled stickers in placement order), and the most
recently placed one is the active selection. -/
theorem placements_stack_above_base (w h : ℚ) (gs : List FabricObject)
    (hk : ∀ g ∈ gs, g.kind = ObjKind.group)
    (hpos : ∀ g ∈ gs, 0 < g.width) :
    (gs.foldl addSticker (initCanvas w h)).canvas.objects
        = mkBaseImage w h :: gs.map (fun g => stickerSet g 1200 960) ∧
    overlayCount (gs.foldl addSticker (initCanvas w h)).canvas.objects = gs.length ∧
    (∀ g ∈ gs,
      (stickerSet g 1200 960).scaleX = 100 / g.width ∧
      (stickerSet g 1200 960).scaleY = (stickerSet g 1200 960).scaleX ∧
      (stickerSet g 1200 960).scaleX * g.width = 100 ∧
      (stickerSet g 1200 960).left = 600 ∧
      (stickerSet g 1200 960).top = 480 ∧
      (stickerSet g 1200 960).originX = "center" ∧
      (stickerSet g 1200 960).originY = "center" ∧
      (stickerSet g 1200 960).cornerSize = 10 ∧
      (stickerSet g 1200 960).cornerColor = "white" ∧
      (stickerSet g 1200 960).cornerStrokeColor = "#aaa" ∧
      (stickerSet g 1200 960).borderColor = "#aaa" ∧
      (stickerSet g 1200 960).transparentCorners = false ∧
      (stickerSet g 1200 960).kind = g.kind) ∧
    (∀ g, gs.getLast? = some g →
      (gs.foldl addSticker (initCanvas w h)).canvas.activeObject = some g.id ∧
      (gs.foldl addSticker (initCanvas w h)).selectedSticker = true) := by
  obtain ⟨h1, -, -, h4⟩ := foldl_addSticker_spec gs (initCanvas w h) rfl rfl
  have hobjs : (gs.foldl addSticker (initCanvas w h)).canvas.objects
      = mkBaseImage w h :: gs.map (fun g => stickerSet g 1200 960) := by
    rw [h1]
    rfl
  refine ⟨hobjs, ?_, ?_, h4⟩
  · rw [hobjs]
    show (if (mkBaseImage w h).kind = ObjKind.group then 1 else 0)
        + overlayCount (gs.map (fun g => stickerSet g 1200 960)) = gs.length
    rw [if_neg (by simp [mkBaseImage]), overlayCount_map_stickerSet gs hk]
    omega
  · intro g hg
    refine ⟨rfl, rfl, ?_, by norm_num [stickerSet], by norm_num [stickerSet],
      rfl, rfl, rfl, rfl, rfl, rfl, rfl, rfl⟩
    show 100 / g.width * g.width = 100
    exact div_mul_cancel₀ 100 (hpos g hg).ne'

/-- Witness for C5: placing one sample sticker from an initialized
surface. -/
theorem placements_stack_above_base_witness :
    ([sampleSticker].foldl addSticker (initCanvas 4 3)).canvas.objects
        = mkBaseImage 4 3 :: [sampleSticker].map (fun g => stickerSet g 1200 960) ∧
    overlayCount ([sampleSticker].foldl addSticker (initCanvas 4 3)).canvas.objects
        = [sampleSticker].length ∧
    (∀ g ∈ [sampleSticker],
      (stickerSet g 1200 960).scaleX = 100 / g.width ∧
      (stickerSet g 1200 960).scaleY = (stickerSet g 1200 960).scaleX ∧
      (stickerSet g 1200 960).scaleX * g.width = 100 ∧
      (stickerSet g 1200 960).left = 600 ∧
      (stickerSet g 1200 960).top = 480 ∧
      (stickerSet g 1200 960).originX = "center" ∧
      (stickerSet g 1200 960).originY = "center" ∧
      (stickerSet g 1200 960).cornerSize = 10 ∧
      (stickerSet g 1200 960).cornerColor = "white" ∧
      (stickerSet g 1200 960).cornerStrokeColor = "#aaa" ∧
      (stickerSet g 1200 960).borderColor = "#aaa" ∧
      (stickerSet g 1200 960).transparentCorners = false ∧
      (stickerSet g 1200 960).kind = g.kind) ∧
    (∀ g, [sampleSticker].getLast? = some g →
      ([sampleSticker].foldl addSticker (initCanvas 4 3)).canvas.activeObject
          = some g.id ∧
      ([sampleSticker].foldl addSticker (initCanvas 4 3)).selectedSticker = true) :=
  placements_stack_above_base 4 3 [sampleSticker]
    (by intro g hg; simp only [List.mem_singleton] at hg; rw [hg]; rfl)
    (by intro g hg; simp only [List.mem_singleton] at hg; rw [hg]; norm_num [sampleSticker])
